import Mathlib

/-
  Shallow embedding of the sonde-notifier core (src/notifier.py, src/prediction.py,
  src/autorx.py) for verifying its natural-language specification.

  Conventions:
  - Python floats are modelled as rationals (the code never does float arithmetic
    whose rounding matters for the claims: it only compares values after
    truncation/rounding, and all inputs are taken as parameters).
  - Python `int(x)` truncates toward zero; we model it as `pyInt`.
  - Python `round(x)` rounds half to even; we model it as `pyRound`.
  - Python dicts / defaultdicts are modelled as association lists in insertion
    order, which matches CPython's key-ordering and defaultdict semantics.
  - The source field `RangeRing.prefix` is called `pfx` here (the original name
    is unavailable in this development); its semantics are unchanged.
-/

attribute [local semireducible] Rat.mul Rat.inv Rat.sub Rat.add

/-- Python `int()` applied to a real value: truncation toward zero.
    `Int.tdiv` is T-division (truncation toward zero), and `q.den > 0`. -/
def pyInt (q : ℚ) : ℤ := Int.tdiv q.num q.den

/-- Python `round()` applied to a real value: round half to even. -/
def pyRound (q : ℚ) : ℤ :=
  let f : ℤ := q.floor
  let r : ℚ := q - (f : ℚ)
  if r < 1/2 then f
  else if 1/2 < r then f + 1
  else if f % 2 = 0 then f else f + 1

/-- `RangeRing` from notifier.py:14-21.  `range` and `maxAltitude` are in meters.
    The source's `prefix` field (default `""`) is named `pfx` here. -/
structure RangeRing where
  id : ℕ
  name : String
  range : ℤ
  maxAltitude : ℤ
  onlyDescending : Bool
  pfx : String := ""
  deriving DecidableEq, Repr

/-- `RangeRing.as_string` from notifier.py:23-31: the key
    `(prefix or overwrite)_range_ring_(name or id)`; the overwrite wins when
    non-empty, and a non-empty prefix gets a trailing underscore. -/
def RangeRing.asString (r : RangeRing) (typ : String) (pfxOverwrite : String) : String :=
  let p := if pfxOverwrite ≠ "" then pfxOverwrite else r.pfx
  let p := if p ≠ "" then p ++ "_" else p
  let suffix := if typ = "name" then r.name else toString r.id
  p ++ "range_ring_" ++ suffix

/-- One entry of `config["notifier"]["range_rings"]` with the keys
    notifier.py:64-76 reads (`name`, `radius` in km, `max_altitude` in km,
    `only_descending`).  A config missing one of these keys is rejected at
    startup (KeyError -> exit(1)), so accepted configs are exactly these. -/
structure RangeRingConfig where
  name : String
  radius : ℚ
  maxAltitude : ℚ
  onlyDescending : Bool
  deriving DecidableEq, Repr

/-- Registry construction from notifier.py:64-76: enumerate the configured
    rings in config order, assigning `id = position`, converting km to meters
    with `int(x*1000)` and replacing `_` by `-` in the name.  No sorting is
    performed. -/
def parseRangeRings (cfgs : List RangeRingConfig) : List RangeRing :=
  (cfgs.enum).map (fun p =>
    { id := p.1
      name := (p.2.name.replace "_" "-")
      range := pyInt (p.2.radius * 1000)
      maxAltitude := pyInt (p.2.maxAltitude * 1000)
      onlyDescending := p.2.onlyDescending })

/-- `Notifier._check_range_rings` (notifier.py:184-211), with the per-serial
    notified list passed explicitly (it is `self.notified_sondes[serial]` in the
    source; the defaultdict side effect of that access is modelled separately by
    `checkRangeRingsState`).  Iterates the registry in list order, skips rings
    whose key is already in the notified list, skips only-descending rings for a
    non-descending sonde, and returns a copy of the first ring whose truncated
    distance and altitude thresholds are met, with `pfx` set to the check's
    prefix. -/
def checkRangeRings (rings : List RangeRing) (notified : List String)
    (distance altitude : ℚ) (descending : Bool) (ringPfx : String) : Option RangeRing :=
  match rings with
  | [] => none
  | ring :: rest =>
    if ring.asString "id" ringPfx ∈ notified then
      checkRangeRings rest notified distance altitude descending ringPfx
    else if ring.onlyDescending && !descending then
      checkRangeRings rest notified distance altitude descending ringPfx
    else if pyInt distance ≤ ring.range ∧ pyInt altitude ≤ ring.maxAltitude then
      some { ring with pfx := ringPfx }
    else
      checkRangeRings rest notified distance altitude descending ringPfx

/-- `Notifier._set_ring_notified` (notifier.py:213-218): append the key of every
    registry ring whose id is `>=` the notified ring's id, under the notified
    ring's prefix, to the serial's notified list. -/
def setRingNotified (rings : List RangeRing) (notified : List String)
    (notifiedRing : RangeRing) : List String :=
  match rings with
  | [] => notified
  | ring :: rest =>
    if notifiedRing.id ≤ ring.id then
      setRingNotified rest (notified ++ [ring.asString "id" notifiedRing.pfx]) notifiedRing
    else
      setRingNotified rest notified notifiedRing

/-- The spec's eligibility predicate for one ring (section 4.3): not yet
    notified under this prefix, not suppressed by `onlyDescending`, and both
    truncated thresholds met. -/
def ringEligible (notified : List String) (distance altitude : ℚ)
    (descending : Bool) (ringPfx : String) (r : RangeRing) : Bool :=
  !(decide (r.asString "id" ringPfx ∈ notified)) && !(r.onlyDescending && !descending)
    && (decide (pyInt distance ≤ r.range) && decide (pyInt altitude ≤ r.maxAltitude))

/-- The descending classification from notifier.py:238-242: `False` when fewer
    than 3 altitude samples were received, otherwise
    `all(altitudes[i] > altitudes[i+1] for i in range(len(altitudes) - 1))`. -/
def isDescending (window : List ℚ) : Bool :=
  if window.length < 3 then false
  else (List.range (window.length - 1)).all
    (fun i => decide (window.getD i 0 > window.getD (i+1) 0))

/-- `SondeFrame` from autorx.py:13-32.  `time` is the UTC receive time in
    seconds; in the source it is `Optional` and set by the listener
    (autorx.py:98) before the frame is handed to the notifier, and the purge
    pass asserts it is present (notifier.py:134), so it is total here. -/
structure SondeFrame where
  serial : String
  frame : ℕ
  latitude : ℚ
  longitude : ℚ
  altitude : ℚ
  model : String
  frequency : ℚ
  time : ℚ
  deriving DecidableEq, Repr

/-- The notifier's shared mutable state (notifier.py:46-53, 65): the
    latest-frame dict `tracked_sondes`, the altitude-window defaultdict
    `sondes_altitudes`, the notified-rings defaultdict `notified_sondes`,
    and the range-ring registry.  Dicts are association lists in insertion
    order. -/
structure NotifierState where
  trackedSondes : List (String × SondeFrame)
  sondesAltitudes : List (String × List ℚ)
  notifiedSondes : List (String × List String)
  rangeRings : List RangeRing
  deriving Repr

/-- notifier.py:12. -/
def TRACKED_SONDES_MAX_SECONDS : ℚ := 5*60*60

/-- `Notifier._purge_old_tracked` (notifier.py:125-155): collect every tracked
    serial whose latest frame is at least `TRACKED_SONDES_MAX_SECONDS` old,
    then delete those serials from all three maps.  (`del` of a serial from
    `sondes_altitudes` cannot fail: ingestion appends to the altitude window of
    every serial it tracks, so every tracked serial has a window.) -/
def purgeOldTracked (now : ℚ) (s : NotifierState) : NotifierState :=
  let remove : List String :=
    (s.trackedSondes.filter
      (fun p => decide (TRACKED_SONDES_MAX_SECONDS ≤ now - p.2.time))).map Prod.fst
  { s with
    trackedSondes := s.trackedSondes.filter (fun p => !(remove.contains p.1))
    notifiedSondes := s.notifiedSondes.filter (fun p => !(remove.contains p.1))
    sondesAltitudes := s.sondesAltitudes.filter (fun p => !(remove.contains p.1)) }

/-- Reading `m[k]` on a `defaultdict(list)` (notifier.py:52): returns the
    stored list, or inserts and returns an empty list when the key is absent
    (CPython appends new keys at the end of the iteration order). -/
def defaultdictGet (m : List (String × List String)) (k : String) :
    List String × List (String × List String) :=
  match m.lookup k with
  | some v => (v, m)
  | none => ([], m ++ [(k, [])])

/-- `Notifier._check_range_rings` with its real state effect: each loop
    iteration reads `self.notified_sondes[serial]` through the defaultdict
    (notifier.py:196), so the map is threaded through the iteration. -/
def checkRangeRingsState (rings : List RangeRing) (m : List (String × List String))
    (serial : String) (distance altitude : ℚ) (descending : Bool) (ringPfx : String) :
    Option RangeRing × List (String × List String) :=
  match rings with
  | [] => (none, m)
  | ring :: rest =>
    let res := defaultdictGet m serial
    if ring.asString "id" ringPfx ∈ res.1 then
      checkRangeRingsState rest res.2 serial distance altitude descending ringPfx
    else if ring.onlyDescending && !descending then
      checkRangeRingsState rest res.2 serial distance altitude descending ringPfx
    else if pyInt distance ≤ ring.range ∧ pyInt altitude ≤ ring.maxAltitude then
      (some { ring with pfx := ringPfx }, res.2)
    else
      checkRangeRingsState rest res.2 serial distance altitude descending ringPfx

/-- `_check_range_rings` as a transition on the whole notifier state: it reads
    the registry and touches only the notified-rings map. -/
def checkRangeRingsFull (s : NotifierState) (serial : String)
    (distance altitude : ℚ) (descending : Bool) (ringPfx : String) :
    Option RangeRing × NotifierState :=
  let res := checkRangeRingsState s.rangeRings s.notifiedSondes serial
    distance altitude descending ringPfx
  (res.1, { s with notifiedSondes := res.2 })

/-- Value of `self.notification_check_cycles` after `t` completed evaluation
    ticks (notifier.py:44 initializes it to 1; notifier.py:225-233 resets it to
    0 on a prediction tick; notifier.py:303 increments it at the end of every
    tick). -/
def notificationCheckCyclesAfter (enabled : Bool) (minCycles : ℕ) : ℕ → ℕ
  | 0 => 1
  | t + 1 =>
    let c := notificationCheckCyclesAfter enabled minCycles t
    if enabled && decide (minCycles ≤ c) then 1 else c + 1

/-- Whether evaluation tick `t` (ticks counted from 1) sets `run_prediction`
    (notifier.py:226-233): the engine exists and the counter at the start of
    the tick has reached `prediction_min_cycles`. -/
def runPredictionOnTick (enabled : Bool) (minCycles : ℕ) (t : ℕ) : Bool :=
  enabled && decide (minCycles ≤ notificationCheckCyclesAfter enabled minCycles (t - 1))

/-- The per-sonde prediction gate of notifier.py:252-282: on a tick with
    `run_prediction` set, a request is issued for a sonde unless its altitude
    window has fewer than 3 samples, or `round(frame_age)` exceeds the check
    interval, or `only_predict_descending` is set and the sonde is not
    descending. -/
def predictionIssued (runPred : Bool) (windowLen : ℕ) (frameAge checkInterval : ℚ)
    (onlyPredictDescending descending : Bool) : Bool :=
  runPred && !(decide (windowLen < 3))
    && !(decide (checkInterval < (pyRound frameAge : ℚ)))
    && !(onlyPredictDescending && !descending)

/-- JSON values, as produced by `json.loads` (prediction.py:90). -/
inductive JValue where
  | null
  | bool (b : Bool)
  | num (q : ℚ)
  | str (s : String)
  | arr (xs : List JValue)
  | obj (fields : List (String × JValue))

/-- Python exceptions that the response processing of prediction.py:88-103 can
    raise. -/
inductive PyErr where
  | keyError (k : String)
  | indexError
  | typeError
  | valueError (s : String)
  deriving DecidableEq, Repr

/-- Python subscript `j[k]` with a string key: `KeyError` on a dict without the
    key, `TypeError` on a non-dict. -/
def jGetKey (j : JValue) (k : String) : Except PyErr JValue :=
  match j with
  | .obj fields =>
    match fields.lookup k with
    | some v => .ok v
    | none => .error (.keyError k)
  | _ => .error .typeError

/-- Python subscript `j[i]` with a non-negative integer index on a list:
    `IndexError` when out of range, `TypeError` on a non-list. -/
def jGetIdx (j : JValue) (i : ℕ) : Except PyErr JValue :=
  match j with
  | .arr xs =>
    match xs.get? i with
    | some v => .ok v
    | none => .error .indexError
  | _ => .error .typeError

/-- Python subscript `j[-1]`: last element of a list. -/
def jGetLast (j : JValue) : Except PyErr JValue :=
  match j with
  | .arr xs =>
    match xs.getLast? with
    | some v => .ok v
    | none => .error .indexError
  | _ => .error .typeError

/-- The landing prediction record built at prediction.py:98-103.  The source
    stores the raw JSON values of the latitude/longitude/altitude fields
    without type-checking them; only `datetime` is parsed. -/
structure LandingPredictionData where
  latitude : JValue
  longitude : JValue
  altitude : JValue
  landingTime : ℚ

/-- The result extraction of prediction.py:95-103, outside any try/except:
    `prediction["prediction"][1]["trajectory"][-1]`, then
    `datetime.fromisoformat(lp["datetime"])`, then the three position fields.
    `fromIso` abstracts `datetime.fromisoformat` (`none` models `ValueError`).
    Any failure here is an uncaught Python exception. -/
def extractLanding (fromIso : String → Option ℚ) (j : JValue) :
    Except PyErr LandingPredictionData := do
  let p ← jGetKey j "prediction"
  let seg ← jGetIdx p 1
  let traj ← jGetKey seg "trajectory"
  let lp ← jGetLast traj
  let dt ← jGetKey lp "datetime"
  let t ← match dt with
    | .str s =>
      match fromIso s with
      | some t => Except.ok t
      | none => Except.error (.valueError s)
    | _ => Except.error .typeError
  let la ← jGetKey lp "latitude"
  let lo ← jGetKey lp "longitude"
  let al ← jGetKey lp "altitude"
  return { latitude := la, longitude := lo, altitude := al, landingTime := t }

/-- Outcome of `requests.get` plus `json.loads` at prediction.py:79-93:
    either the request raised, or it returned a status code and a body
    (`none` models a body that `json.loads` rejects). -/
inductive NetResult where
  | err (msg : String)
  | resp (statusCode : ℕ) (body : Option JValue)

/-- `PredictionEngine.run_landing_prediction`, response half (prediction.py:
    77-103): a request exception returns `none` (caught, prediction.py:80-82);
    a non-200 status returns `none` (prediction.py:84-86); a JSON decode error
    returns `none` (caught, prediction.py:89-93); but the shape extraction
    runs outside the try/except, so its failures escape as exceptions
    (`Except.error`). -/
def runLandingPrediction (fromIso : String → Option ℚ) (result : NetResult) :
    Except PyErr (Option LandingPredictionData) :=
  match result with
  | .err _ => .ok none
  | .resp statusCode body =>
    if statusCode ≠ 200 then .ok none
    else
      match body with
      | none => .ok none
      | some j =>
        match extractLanding fromIso j with
        | .ok lp => .ok (some lp)
        | .error e => .error e

/-- The notifier's three locks (notifier.py:47,50,53). -/
inductive PyLock where
  | trackedSondesLock
  | notifiedSondesLock
  | sondesAltitudesLock
  deriving DecidableEq, Repr

/-- A Python object together with its truthiness. -/
structure PyObj (α : Type) where
  val : α
  truthy : Bool
  deriving DecidableEq, Repr

/-- Python's `and`: if the left operand is falsy it is the result, otherwise
    the right operand is. -/
def pyAnd {α : Type} (a b : PyObj α) : PyObj α :=
  if a.truthy then b else a

/-- A `threading.Lock` object is always truthy. -/
def lockObj (l : PyLock) : PyObj PyLock := ⟨l, true⟩

/-- The expression of the scoped-acquisition statement at notifier.py:235:
    `self.tracked_sondes_lock and self.notified_sondes_lock and
    self.sondes_altitudes_lock` (Python `and` associates to the left). -/
def checkNotificationsWithExpr : PyObj PyLock :=
  pyAnd (pyAnd (lockObj .trackedSondesLock) (lockObj .notifiedSondesLock))
    (lockObj .sondesAltitudesLock)

/-- A `with e:` statement acquires exactly the one context manager that its
    expression evaluates to. -/
def locksAcquiredByWith (e : PyObj PyLock) : List PyLock := [e.val]

/-! Demonstration registry used by the witnesses: two rings as in spec
    section 8 (R0: 5000 m / 1000 m, R1: 20000 m / 3000 m). -/

def demoR0 : RangeRing :=
  { id := 0, name := "inner", range := 5000, maxAltitude := 1000, onlyDescending := false }

def demoR1 : RangeRing :=
  { id := 1, name := "outer", range := 20000, maxAltitude := 3000, onlyDescending := false }

def demoRings : List RangeRing := [demoR0, demoR1]

/-- A demo frame for the purge witness, received at time 0. -/
def demoFrame : SondeFrame :=
  { serial := "X1234567", frame := 100, latitude := 50, longitude := 8,
    altitude := 5000, model := "RS41", frequency := 403, time := 0 }

/-- A second demo frame, received at time 3600. -/
def demoFrameYoung : SondeFrame :=
  { serial := "Y7654321", frame := 7, latitude := 51, longitude := 9,
    altitude := 8000, model := "RS41", frequency := 404, time := 3600 }

/-- A demo notifier state holding one old and one young sonde. -/
def demoState : NotifierState :=
  { trackedSondes := [("X1234567", demoFrame), ("Y7654321", demoFrameYoung)]
    sondesAltitudes := [("X1234567", [5200, 5100, 5000]), ("Y7654321", [8000])]
    notifiedSondes := [("X1234567", ["range_ring_0", "range_ring_1"])]
    rangeRings := demoRings }

/-! Sanity examples. -/

example : isDescending [5000, 4800, 4600] = true := by decide
example : isDescending [4600, 4800, 4600] = false := by decide
example : isDescending [5000, 4800] = false := by decide
example : pyInt (39/10) = 3 := by decide
example : pyInt (-39/10) = -3 := by decide
example : pyRound (5/2) = 2 := by decide
example : pyRound (7/2) = 4 := by decide
example :
    (parseRangeRings [⟨"inner", 5, 1, false⟩, ⟨"outer", 20, 3, false⟩]).map
      (fun r => (r.id, r.range, r.maxAltitude)) = [(0, 5000, 1000), (1, 20000, 3000)] := by
  decide
example :
    checkRangeRings
      [{ id := 0, name := "inner", range := 5000, maxAltitude := 1000, onlyDescending := false },
       { id := 1, name := "outer", range := 20000, maxAltitude := 3000, onlyDescending := false }]
      [] 4000 500 false "" =
      some { id := 0, name := "inner", range := 5000, maxAltitude := 1000,
             onlyDescending := false, pfx := "" } := by decide

/-! Helper lemmas. -/

theorem mem_setRingNotified (rings : List RangeRing) (notified : List String)
    (nr : RangeRing) (s : String) :
    s ∈ setRingNotified rings notified nr ↔
      s ∈ notified ∨ ∃ r ∈ rings, nr.id ≤ r.id ∧ s = r.asString "id" nr.pfx := by
  induction rings generalizing notified with
  | nil => simp [setRingNotified]
  | cons r rest ih =>
    simp only [setRingNotified]
    split
    · rename_i hc
      rw [ih]
      simp only [List.mem_append, List.mem_cons, List.mem_singleton, List.mem_nil_iff,
        or_false]
      constructor
      · rintro (⟨h | h⟩ | ⟨r', hr', hle, he⟩)
        · exact Or.inl h
        · exact Or.inr ⟨r, Or.inl rfl, hc, h⟩
        · exact Or.inr ⟨r', Or.inr hr', hle, he⟩
      · rintro (h | ⟨r', rfl | hr', hle, he⟩)
        · exact Or.inl (Or.inl h)
        · exact Or.inl (Or.inr he)
        · exact Or.inr ⟨r', hr', hle, he⟩
    · rename_i hc
      rw [ih]
      simp only [List.mem_cons]
      constructor
      · rintro (h | ⟨r', hr', hle, he⟩)
        · exact Or.inl h
        · exact Or.inr ⟨r', Or.inr hr', hle, he⟩
      · rintro (h | ⟨r', rfl | hr', hle, he⟩)
        · exact Or.inl h
        · exact absurd hle hc
        · exact Or.inr ⟨r', hr', hle, he⟩

theorem checkRangeRings_eq_find (rings : List RangeRing) (notified : List String)
    (d a : ℚ) (desc : Bool) (p : String) :
    checkRangeRings rings notified d a desc p =
      (rings.find? (ringEligible notified d a desc p)).map (fun r => { r with pfx := p }) := by
  induction rings with
  | nil => rfl
  | cons r rest ih =>
    by_cases h1 : r.asString "id" p ∈ notified
    · rw [checkRangeRings, if_pos h1, ih, List.find?_cons_of_neg]
      simp [ringEligible, h1]
    · by_cases h2 : (r.onlyDescending && !desc) = true
      · rw [checkRangeRings, if_neg h1, if_pos h2, ih, List.find?_cons_of_neg]
        simp [ringEligible, h1, h2]
      · by_cases h3 : pyInt d ≤ r.range ∧ pyInt a ≤ r.maxAltitude
        · rw [checkRangeRings, if_neg h1, if_neg (by simp [h2]), if_pos h3,
            List.find?_cons_of_pos]
          · rfl
          · simp [ringEligible, h1, h2, h3.1, h3.2]
        · rw [checkRangeRings, if_neg h1, if_neg (by simp [h2]), if_neg h3, ih,
            List.find?_cons_of_neg]
          simp only [ringEligible, Bool.and_eq_true, Bool.not_eq_true',
            decide_eq_false_iff_not, decide_eq_true_eq, not_and]
          intro _ _
          tauto

theorem find_min_id (rings : List RangeRing) (q : RangeRing → Bool) (rr : RangeRing)
    (hids : rings.Pairwise (fun r s => r.id ≤ s.id)) (h : rings.find? q = some rr) :
    ∀ s ∈ rings, q s = true → rr.id ≤ s.id := by
  induction rings with
  | nil => simp at h
  | cons r rest ih =>
    rcases List.pairwise_cons.1 hids with ⟨hhead, htail⟩
    by_cases hq : q r = true
    · rw [List.find?_cons_of_pos _ hq] at h
      cases h
      intro s hs _
      rcases List.mem_cons.1 hs with rfl | hs
      · exact le_refl _
      · exact hhead s hs
    · rw [List.find?_cons_of_neg _ (by simpa using hq)] at h
      intro s hs hqs
      rcases List.mem_cons.1 hs with rfl | hs
      · exact absurd hqs hq
      · exact ih htail h s hs hqs

/-- C4.  Descending classification: `isDescending` is true exactly when the
    window has at least 3 samples and every consecutive pair is strictly
    decreasing, and every window with fewer than 3 samples is classified as
    not descending regardless of its values. -/
theorem c4_descending_classification (window : List ℚ) :
    (isDescending window = true ↔
      3 ≤ window.length ∧
        ∀ i, i + 1 < window.length → window.getD i 0 > window.getD (i+1) 0) ∧
    (window.length < 3 → isDescending window = false) := by
  constructor
  · unfold isDescending
    split
    · rename_i hlen
      simp only [Bool.false_eq_true, false_iff, not_and]
      intro h3
      omega
    · rename_i hlen
      rw [List.all_eq_true]
      constructor
      · intro h
        refine ⟨by omega, fun i hi => ?_⟩
        have := h i (List.mem_range.2 (by omega))
        exact of_decide_eq_true this
      · rintro ⟨-, h⟩ i hi
        exact decide_eq_true (h i (by have := List.mem_range.1 hi; omega))
  · intro hlen
    unfold isDescending
    rw [if_pos hlen]

/-- Witness for C4 at the spec's example windows. -/
theorem c4_descending_classification_witness :
    isDescending [5000, 4800, 4600] = true ∧ isDescending [5000, 4800] = false := by
  constructor
  · exact (c4_descending_classification [5000, 4800, 4600]).1.mpr
      ⟨by decide, by
        intro i hi
        simp only [List.length_cons, List.length_nil] at hi
        have h01 : i = 0 ∨ i = 1 := by omega
        rcases h01 with rfl | rfl <;> decide⟩
  · exact (c4_descending_classification [5000, 4800]).2 (by decide)

/-- C2.  First-ascending-match: `checkRangeRings` returns (a prefixed copy of)
    the first registry ring that is not already notified under the prefix, not
    suppressed by `onlyDescending`, and whose truncated distance and altitude
    thresholds are met — and `none` when no ring qualifies; when the registry
    ids ascend in list order, the returned ring's id is minimal among all
    qualifying rings, so when two rings are simultaneously satisfied only the
    smaller-id ring is returned. -/
theorem c2_first_ascending_match (rings : List RangeRing) (notified : List String)
    (d a : ℚ) (desc : Bool) (p : String)
    (hids : rings.Pairwise (fun r s => r.id ≤ s.id)) :
    (checkRangeRings rings notified d a desc p =
      (rings.find? (ringEligible notified d a desc p)).map (fun r => { r with pfx := p })) ∧
    (∀ r', checkRangeRings rings notified d a desc p = some r' →
      ∀ s ∈ rings, ringEligible notified d a desc p s = true → r'.id ≤ s.id) := by
  refine ⟨checkRangeRings_eq_find rings notified d a desc p, ?_⟩
  intro r' hr' s hs hqs
  rw [checkRangeRings_eq_find] at hr'
  rcases Option.map_eq_some'.1 hr' with ⟨rr, hfind, rfl⟩
  exact find_min_id rings _ rr hids hfind s hs hqs

/-- Witness for C2: with both demo rings simultaneously satisfied and nothing
    notified yet, the check returns the inner ring (id 0). -/
theorem c2_first_ascending_match_witness :
    checkRangeRings demoRings [] 4000 500 false "" =
      (demoRings.find? (ringEligible [] 4000 500 false "")).map
        (fun r => { r with pfx := "" }) ∧
    checkRangeRings demoRings [] 4000 500 false "" = some { demoR0 with pfx := "" } := by
  refine ⟨(c2_first_ascending_match demoRings [] 4000 500 false "" (by decide)).1, by decide⟩

/-- C1.  Telescoping dedup: after `_set_ring_notified(serial, R)` every
    registry ring whose id is `>= R.id` has its key (under `R`'s prefix)
    recorded in the serial's notified list, and every later check under that
    prefix — against any notified list that retains those records — never
    returns a ring with id `>= R.id`. -/
theorem c1_telescoping_dedup (rings : List RangeRing) (notified : List String)
    (nr : RangeRing) :
    (∀ r ∈ rings, nr.id ≤ r.id →
      r.asString "id" nr.pfx ∈ setRingNotified rings notified nr) ∧
    (∀ later : List String,
      (∀ x ∈ setRingNotified rings notified nr, x ∈ later) →
      ∀ d a desc r', checkRangeRings rings later d a desc nr.pfx = some r' →
        r'.id < nr.id) := by
  constructor
  · intro r hr hle
    exact (mem_setRingNotified rings notified nr _).2 (Or.inr ⟨r, hr, hle, rfl⟩)
  · intro later hsub d a desc r' hr'
    rw [checkRangeRings_eq_find] at hr'
    rcases Option.map_eq_some'.1 hr' with ⟨rr, hfind, rfl⟩
    have hmem : rr ∈ rings := List.mem_of_find?_eq_some hfind
    have helig : ringEligible later d a desc nr.pfx rr = true := List.find?_some hfind
    simp only [ringEligible, Bool.and_eq_true, Bool.not_eq_true', decide_eq_false_iff_not,
      decide_eq_true_eq] at helig
    by_contra hge
    have hrid : RangeRing.id { rr with pfx := nr.pfx } = rr.id := rfl
    have hle : nr.id ≤ rr.id := by omega
    exact helig.1.1 (hsub _
      ((mem_setRingNotified rings notified nr _).2 (Or.inr ⟨rr, hmem, hle, rfl⟩)))

/-- Witness for C1: marking the outer demo ring records its key, and a check
    against the resulting notified list at a position satisfying both rings
    returns the inner ring, whose id is smaller than the marked one's. -/
theorem c1_telescoping_dedup_witness :
    demoR1.asString "id" "" ∈ setRingNotified demoRings [] demoR1 ∧
    RangeRing.id { demoR0 with pfx := "" } < demoR1.id := by
  constructor
  · exact (c1_telescoping_dedup demoRings [] demoR1).1 demoR1 (by decide) (by decide)
  · exact (c1_telescoping_dedup demoRings [] demoR1).2
      (setRingNotified demoRings [] demoR1) (fun x hx => hx) 4000 500 false
      { demoR0 with pfx := "" } (by decide)

/-! Key-shape lemmas for the dedup namespaces. -/

theorem asString_id_prediction (r : RangeRing) :
    r.asString "id" "prediction" = "prediction_range_ring_" ++ toString r.id := by
  simp only [RangeRing.asString]
  norm_num
  rfl

theorem asString_id_empty (r : RangeRing) (h : r.pfx = "") :
    r.asString "id" "" = "range_ring_" ++ toString r.id := by
  simp only [RangeRing.asString, h]
  norm_num
  rfl

theorem pred_live_key_ne (s t : String) :
    ("prediction_range_ring_" ++ s) ≠ ("range_ring_" ++ t) := by
  intro h
  have hd := congrArg String.data h
  rw [String.data_append, String.data_append] at hd
  have e1 : "prediction_range_ring_".data = 'p' :: "rediction_range_ring_".data := rfl
  have e2 : "range_ring_".data = 'r' :: "ange_ring_".data := rfl
  rw [e1, e2, List.cons_append, List.cons_append] at hd
  injection hd with h1 _
  exact absurd h1 (by decide)

theorem checkRangeRings_congr (rings : List RangeRing) (L1 L2 : List String)
    (d a : ℚ) (desc : Bool) (p : String)
    (h : ∀ r ∈ rings, (r.asString "id" p ∈ L1 ↔ r.asString "id" p ∈ L2)) :
    checkRangeRings rings L1 d a desc p = checkRangeRings rings L2 d a desc p := by
  induction rings with
  | nil => rfl
  | cons r rest ih =>
    have hr := h r (List.mem_cons_self r rest)
    have hrest := fun r' hr' => h r' (List.mem_cons_of_mem r hr')
    simp only [checkRangeRings]
    by_cases h1 : r.asString "id" p ∈ L1
    · rw [if_pos h1, if_pos (hr.1 h1)]
      exact ih hrest
    · rw [if_neg h1, if_neg (fun hx => h1 (hr.2 hx))]
      split
      · exact ih hrest
      · split
        · rfl
        · exact ih hrest

/-- C8.  Prefix isolation: the outcome of a ring check under a prefix depends
    only on which ring keys of that prefix are in the serial's notified list;
    marking a ring notified under the live prefix `""` never changes a check
    under the `"prediction"` prefix, and marking under `"prediction"` never
    changes a check under the live prefix. -/
theorem c8_prefix_isolation (rings : List RangeRing) (d a : ℚ) (desc : Bool) :
    (∀ L1 L2 p, (∀ r ∈ rings, (r.asString "id" p ∈ L1 ↔ r.asString "id" p ∈ L2)) →
      checkRangeRings rings L1 d a desc p = checkRangeRings rings L2 d a desc p) ∧
    (∀ L nr, (∀ r ∈ rings, r.pfx = "") → nr.pfx = "" →
      checkRangeRings rings (setRingNotified rings L nr) d a desc "prediction" =
        checkRangeRings rings L d a desc "prediction") ∧
    (∀ L nr, (∀ r ∈ rings, r.pfx = "") → nr.pfx = "prediction" →
      checkRangeRings rings (setRingNotified rings L nr) d a desc "" =
        checkRangeRings rings L d a desc "") := by
  refine ⟨fun L1 L2 p h => checkRangeRings_congr rings L1 L2 d a desc p h, ?_, ?_⟩
  · intro L nr hpfx hnr
    apply checkRangeRings_congr
    intro r hr
    rw [mem_setRingNotified]
    constructor
    · rintro (h | ⟨r', hr', hle, he⟩)
      · exact h
      · exfalso
        rw [asString_id_prediction, hnr, asString_id_empty r' (hpfx r' hr')] at he
        exact pred_live_key_ne _ _ he
    · exact fun h => Or.inl h
  · intro L nr hpfx hnr
    apply checkRangeRings_congr
    intro r hr
    rw [mem_setRingNotified]
    constructor
    · rintro (h | ⟨r', hr', hle, he⟩)
      · exact h
      · exfalso
        rw [asString_id_empty r (hpfx r hr), hnr, asString_id_prediction] at he
        exact pred_live_key_ne _ _ he.symm
    · exact fun h => Or.inl h

/-- Witness for C8 on the demo registry: adding the prediction key of ring 0
    changes nothing for a live check, and marking ring 0 under either prefix
    leaves checks under the other prefix untouched. -/
theorem c8_prefix_isolation_witness :
    (checkRangeRings demoRings ["range_ring_0"] 4000 500 false "" =
      checkRangeRings demoRings ["range_ring_0", "prediction_range_ring_0"]
        4000 500 false "") ∧
    (checkRangeRings demoRings (setRingNotified demoRings [] demoR0)
        4000 500 false "prediction" =
      checkRangeRings demoRings [] 4000 500 false "prediction") ∧
    (checkRangeRings demoRings
        (setRingNotified demoRings [] { demoR0 with pfx := "prediction" })
        4000 500 false "" =
      checkRangeRings demoRings [] 4000 500 false "") :=
  ⟨(c8_prefix_isolation demoRings 4000 500 false).1 _ _ "" (by decide),
   (c8_prefix_isolation demoRings 4000 500 false).2.1 [] demoR0 (by decide) (by decide),
   (c8_prefix_isolation demoRings 4000 500 false).2.2 []
     { demoR0 with pfx := "prediction" } (by decide) (by decide)⟩

/-! Association-list lemmas for the purge pass. -/

theorem lookup_mem {α : Type} (l : List (String × α)) (k : String) (v : α)
    (h : l.lookup k = some v) : (k, v) ∈ l := by
  induction l with
  | nil => simp [List.lookup] at h
  | cons p rest ih =>
    obtain ⟨k', v'⟩ := p
    simp only [List.lookup] at h
    split at h
    · rename_i heq
      cases h
      have : k = k' := by simpa using heq
      subst this
      exact List.mem_cons_self _ _
    · exact List.mem_cons_of_mem _ (ih h)

theorem lookup_filter_drop {α : Type} (l : List (String × α)) (k : String)
    (f : String × α → Bool) (hk : ∀ p ∈ l, p.1 = k → f p = false) :
    (l.filter f).lookup k = none := by
  induction l with
  | nil => rfl
  | cons p rest ih =>
    rw [List.filter_cons]
    have ihrest := ih (fun q hq he => hk q (List.mem_cons_of_mem _ hq) he)
    split
    · rename_i hf
      obtain ⟨k', v'⟩ := p
      have hne : ¬ (k = k') := by
        intro he
        rw [hk (k', v') (List.mem_cons_self _ _) he.symm] at hf
        cases hf
      have hbeq : (k == k') = false := by simpa using hne
      simp only [List.lookup, hbeq]
      exact ihrest
    · exact ihrest

theorem lookup_filter_keep {α : Type} (l : List (String × α)) (k : String)
    (f : String × α → Bool) (hk : ∀ p ∈ l, p.1 = k → f p = true) :
    (l.filter f).lookup k = l.lookup k := by
  induction l with
  | nil => rfl
  | cons p rest ih =>
    rw [List.filter_cons]
    have ihrest := ih (fun q hq he => hk q (List.mem_cons_of_mem _ hq) he)
    obtain ⟨k', v'⟩ := p
    by_cases he : k = k'
    · rw [if_pos (hk (k', v') (List.mem_cons_self _ _) he.symm)]
      subst he
      simp [List.lookup]
    · have hbeq : (k == k') = false := by simpa using he
      split
      · simp only [List.lookup, hbeq]
        exact ihrest
      · simp only [List.lookup, hbeq]
        exact ihrest

theorem lookup_unique_of_nodup {α : Type} (l : List (String × α)) (k : String)
    (v w : α) (hnd : (l.map Prod.fst).Nodup) (hl : l.lookup k = some v)
    (hm : (k, w) ∈ l) : w = v := by
  induction l with
  | nil => simp at hm
  | cons p rest ih =>
    obtain ⟨k', v'⟩ := p
    rw [List.map_cons, List.nodup_cons] at hnd
    simp only [List.lookup] at hl
    rcases List.mem_cons.1 hm with he | hm'
    · have hk : k = k' := congrArg Prod.fst he
      have hbeq : (k == k') = true := by simpa using hk
      rw [hbeq] at hl
      cases hl
      exact congrArg Prod.snd he
    · have hk' : ¬ (k = k') := by
        intro he'
        subst he'
        exact hnd.1 (List.mem_map.2 ⟨(k, w), hm', rfl⟩)
      have hbeq : (k == k') = false := by simpa using hk'
      rw [hbeq] at hl
      exact ih hnd.2 hl hm'

/-- C5.  Purge completeness and threshold: a tracked sonde is removed from all
    three structures by the purge pass exactly when its latest frame is at
    least `TRACKED_SONDES_MAX_SECONDS` (5 hours) old, and all three entries of
    every younger sonde are left unchanged. -/
theorem c5_purge_completeness (now : ℚ) (s : NotifierState) (serial : String)
    (frame : SondeFrame) (hnd : (s.trackedSondes.map Prod.fst).Nodup)
    (hlook : s.trackedSondes.lookup serial = some frame) :
    (TRACKED_SONDES_MAX_SECONDS ≤ now - frame.time →
      (purgeOldTracked now s).trackedSondes.lookup serial = none ∧
      (purgeOldTracked now s).notifiedSondes.lookup serial = none ∧
      (purgeOldTracked now s).sondesAltitudes.lookup serial = none) ∧
    (now - frame.time < TRACKED_SONDES_MAX_SECONDS →
      (purgeOldTracked now s).trackedSondes.lookup serial =
        s.trackedSondes.lookup serial ∧
      (purgeOldTracked now s).notifiedSondes.lookup serial =
        s.notifiedSondes.lookup serial ∧
      (purgeOldTracked now s).sondesAltitudes.lookup serial =
        s.sondesAltitudes.lookup serial) := by
  set remove : List String :=
    (s.trackedSondes.filter
      (fun p => decide (TRACKED_SONDES_MAX_SECONDS ≤ now - p.2.time))).map Prod.fst
    with hremove
  constructor
  · intro hold
    have hserial : serial ∈ remove := by
      rw [hremove]
      exact List.mem_map.2 ⟨(serial, frame),
        List.mem_filter.2 ⟨lookup_mem _ _ _ hlook, by simpa using hold⟩, rfl⟩
    have hdrop : ∀ {α : Type} (p : String × α), p.1 = serial →
        (!(remove.contains p.1)) = false := by
      intro α p he
      rw [he]
      simpa [List.contains] using hserial
    refine ⟨?_, ?_, ?_⟩ <;>
      exact lookup_filter_drop _ _ _ (fun p _ he => hdrop p he)
  · intro hyoung
    have hserial : serial ∉ remove := by
      rw [hremove]
      intro hmem
      rcases List.mem_map.1 hmem with ⟨p, hp, hfst⟩
      rcases List.mem_filter.1 hp with ⟨hpmem, hpcond⟩
      obtain ⟨k, g⟩ := p
      cases hfst
      have := lookup_unique_of_nodup _ _ _ _ hnd hlook hpmem
      subst this
      simp only [decide_eq_true_eq] at hpcond
      exact absurd hpcond (by exact not_le.2 hyoung)
    have hkeep : ∀ {α : Type} (p : String × α), p.1 = serial →
        (!(remove.contains p.1)) = true := by
      intro α p he
      rw [he]
      simpa [List.contains] using hserial
    refine ⟨?_, ?_, ?_⟩ <;>
      exact lookup_filter_keep _ _ _ (fun p _ he => hkeep p he)

/-- Witness for C5: at `now = 20000` the sonde whose frame arrived at time 0
    (age 20000 s >= 18000 s) is dropped from all three structures. -/
theorem c5_purge_completeness_witness :
    (purgeOldTracked 20000 demoState).trackedSondes.lookup "X1234567" = none ∧
    (purgeOldTracked 20000 demoState).notifiedSondes.lookup "X1234567" = none ∧
    (purgeOldTracked 20000 demoState).sondesAltitudes.lookup "X1234567" = none :=
  (c5_purge_completeness 20000 demoState "X1234567" demoFrame (by decide) (by decide)).1
    (by decide)

/-! Cycle-counter lemmas for the prediction gate. -/

theorem notificationCheckCyclesAfter_mod (N : ℕ) (hN : 1 ≤ N) (t : ℕ) :
    notificationCheckCyclesAfter true N t = t % N + 1 := by
  induction t with
  | zero => simp [notificationCheckCyclesAfter]
  | succ t ih =>
    simp only [notificationCheckCyclesAfter, ih, Bool.true_and]
    have hlt : t % N < N := Nat.mod_lt _ (by omega)
    have hmod : (t + 1) % N = (t % N + 1) % N := (Nat.mod_add_mod t N 1).symm
    by_cases hc : N ≤ t % N + 1
    · rw [if_pos (by simpa using hc)]
      have he : t % N + 1 = N := by omega
      rw [hmod, he, Nat.mod_self]
    · rw [if_neg (by simpa using hc)]
      have he : (t % N + 1) % N = t % N + 1 := Nat.mod_eq_of_lt (by omega)
      rw [hmod, he]

theorem runPredictionOnTick_iff (N t : ℕ) (hN : 1 ≤ N) (ht : 1 ≤ t) :
    runPredictionOnTick true N t = true ↔ N ∣ t := by
  unfold runPredictionOnTick
  rw [notificationCheckCyclesAfter_mod N hN (t - 1)]
  simp only [Bool.true_and, decide_eq_true_eq]
  have h1 : t - 1 + 1 = t := by omega
  have h2 : (t - 1) % N < N := Nat.mod_lt _ (by omega)
  have h3 : t % N = ((t - 1) % N + 1) % N := by rw [Nat.mod_add_mod, h1]
  rw [Nat.dvd_iff_mod_eq_zero]
  constructor
  · intro h
    have he : (t - 1) % N + 1 = N := by omega
    rw [h3, he, Nat.mod_self]
  · intro h
    by_contra hlt
    have he : ((t - 1) % N + 1) % N = (t - 1) % N + 1 := Nat.mod_eq_of_lt (by omega)
    rw [h3, he] at h
    omega

/-- C6.  Prediction gating: an outbound prediction request is issued for a
    sonde on tick `t` exactly when prediction is enabled, `t` is a multiple of
    `predictionCycles` (the rolling counter reaches the threshold and resets,
    so requests run on ticks N, 2N, 3N, ...), the sonde's altitude window has
    at least 3 samples, the latest frame's age rounded to whole seconds is at
    most one check interval, and, when `only_predict_descending` is set, the
    sonde is classified descending; failing any condition, no request is
    issued on that tick. -/
theorem c6_prediction_gating (enabled onlyD desc : Bool) (N t windowLen : ℕ)
    (frameAge checkInterval : ℚ) (hN : 1 ≤ N) (ht : 1 ≤ t) :
    predictionIssued (runPredictionOnTick enabled N t) windowLen frameAge
        checkInterval onlyD desc = true ↔
      (enabled = true ∧ N ∣ t ∧ 3 ≤ windowLen ∧
        ((pyRound frameAge : ℚ) ≤ checkInterval) ∧ (onlyD = true → desc = true)) := by
  cases enabled with
  | false =>
    simp [predictionIssued, runPredictionOnTick]
  | true =>
    have hrun := runPredictionOnTick_iff N t hN ht
    constructor
    · intro h
      simp only [predictionIssued, Bool.and_eq_true, Bool.not_eq_true',
        decide_eq_false_iff_not, not_lt] at h
      obtain ⟨⟨⟨hrp, h3⟩, hage⟩, hdesc⟩ := h
      refine ⟨rfl, hrun.1 hrp, by omega, hage, ?_⟩
      intro ho
      cases desc with
      | true => rfl
      | false =>
        rw [ho] at hdesc
        simp at hdesc
    · rintro ⟨-, hdvd, h3, hage, hdesc⟩
      simp only [predictionIssued, Bool.and_eq_true, Bool.not_eq_true',
        decide_eq_false_iff_not, not_lt]
      refine ⟨⟨⟨hrun.2 hdvd, by omega⟩, hage⟩, ?_⟩
      cases onlyD with
      | false => rfl
      | true =>
        rw [hdesc rfl]
        rfl

/-- Witness for C6: with `predictionCycles = 3`, tick 6 a multiple of 3, a
    5-sample window, frame age 30 s within a 60 s interval, and a descending
    sonde, the request is issued. -/
theorem c6_prediction_gating_witness :
    predictionIssued (runPredictionOnTick true 3 6) 5 30 60 true true = true :=
  (c6_prediction_gating true true true 3 6 5 30 60 (by decide) (by decide)).mpr
    ⟨rfl, by decide, by decide, by decide, fun _ => rfl⟩

/-! Defaultdict threading lemmas for the stateful ring check. -/

theorem lookup_append_single (m : List (String × List String)) (k : String)
    (v : List String) (h : m.lookup k = none) :
    (m ++ [(k, v)]).lookup k = some v := by
  induction m with
  | nil => simp [List.lookup]
  | cons p rest ih =>
    obtain ⟨k', v'⟩ := p
    cases hbeq : (k == k') with
    | true =>
      simp only [List.lookup, hbeq] at h
      cases h
    | false =>
      simp only [List.lookup, hbeq] at h
      simp only [List.cons_append, List.lookup, hbeq]
      exact ih h

theorem checkRangeRingsState_of_isSome (rings : List RangeRing)
    (m : List (String × List String)) (serial : String) (d a : ℚ) (desc : Bool)
    (p : String) (h : (m.lookup serial).isSome) :
    (checkRangeRingsState rings m serial d a desc p).2 = m := by
  induction rings with
  | nil => rfl
  | cons r rest ih =>
    obtain ⟨v, hv⟩ := Option.isSome_iff_exists.1 h
    simp only [checkRangeRingsState, defaultdictGet, hv]
    split
    · exact ih
    · split
      · exact ih
      · split
        · rfl
        · exact ih

/-- C10.  Frame effect of the ring check: a call materializes an empty
    notified-rings entry for the serial when none exists (the defaultdict
    access at notifier.py:196), even when it returns no ring; apart from that
    it leaves the notified-rings map, the latest-frame map, the altitude
    windows and the registry unchanged. -/
theorem c10_check_frame_effect (s : NotifierState) (serial : String) (d a : ℚ)
    (desc : Bool) (p : String) (hne : s.rangeRings ≠ []) :
    (checkRangeRingsFull s serial d a desc p).2.trackedSondes = s.trackedSondes ∧
    (checkRangeRingsFull s serial d a desc p).2.sondesAltitudes = s.sondesAltitudes ∧
    (checkRangeRingsFull s serial d a desc p).2.rangeRings = s.rangeRings ∧
    (checkRangeRingsFull s serial d a desc p).2.notifiedSondes =
      (match s.notifiedSondes.lookup serial with
       | some _ => s.notifiedSondes
       | none => s.notifiedSondes ++ [(serial, [])]) := by
  refine ⟨rfl, rfl, rfl, ?_⟩
  show (checkRangeRingsState s.rangeRings s.notifiedSondes serial d a desc p).2 = _
  cases hl : s.notifiedSondes.lookup serial with
  | some v =>
    exact checkRangeRingsState_of_isSome _ _ _ _ _ _ _ (by rw [hl]; rfl)
  | none =>
    have hsome : ((s.notifiedSondes ++ [(serial, [])]).lookup serial).isSome := by
      rw [lookup_append_single _ _ _ hl]
      rfl
    cases hrr : s.rangeRings with
    | nil => exact absurd hrr hne
    | cons r rest =>
      simp only [checkRangeRingsState, defaultdictGet, hl]
      split
      · exact checkRangeRingsState_of_isSome _ _ _ _ _ _ _ hsome
      · split
        · exact checkRangeRingsState_of_isSome _ _ _ _ _ _ _ hsome
        · split
          · rfl
          · exact checkRangeRingsState_of_isSome _ _ _ _ _ _ _ hsome

/-- Witness for C10: checking an untracked serial against the demo state
    returns with the serial materialized as an empty entry and everything else
    untouched. -/
theorem c10_check_frame_effect_witness :
    (checkRangeRingsFull demoState "Z0000000" 4000 500 false "").2.trackedSondes =
      demoState.trackedSondes ∧
    (checkRangeRingsFull demoState "Z0000000" 4000 500 false "").2.sondesAltitudes =
      demoState.sondesAltitudes ∧
    (checkRangeRingsFull demoState "Z0000000" 4000 500 false "").2.rangeRings =
      demoState.rangeRings ∧
    (checkRangeRingsFull demoState "Z0000000" 4000 500 false "").2.notifiedSondes =
      (match demoState.notifiedSondes.lookup "Z0000000" with
       | some _ => demoState.notifiedSondes
       | none => demoState.notifiedSondes ++ [("Z0000000", [])]) :=
  c10_check_frame_effect demoState "Z0000000" 4000 500 false "" (by decide)

/-- C3.  The registry is built in configuration order with ids 0, 1, ...; a
    configuration listing radii in descending order is accepted, yet the
    resulting registry is NOT sorted ascending by `range` — no sorting happens
    at load time, contrary to the claim. -/
theorem c3_registry_unsorted_on_descending_config :
    ((parseRangeRings [⟨"outer", 20, 3, false⟩, ⟨"inner", 5, 1, false⟩]).map
        (fun r => r.range) = [20000, 5000]) ∧
    ¬ List.Pairwise (fun x y => x ≤ y)
        ((parseRangeRings [⟨"outer", 20, 3, false⟩, ⟨"inner", 5, 1, false⟩]).map
          (fun r => r.range)) ∧
    ((parseRangeRings [⟨"outer", 20, 3, false⟩, ⟨"inner", 5, 1, false⟩]).map
        (fun r => r.id) = [0, 1]) := by
  refine ⟨by decide, ?_, by decide⟩
  intro h
  have h20 : (20000 : ℤ) ≤ 5000 := by
    have := List.pairwise_cons.1 (by
      have he : (parseRangeRings [⟨"outer", 20, 3, false⟩, ⟨"inner", 5, 1, false⟩]).map
          (fun r => r.range) = [20000, 5000] := by decide
      rw [he] at h
      exact h)
    exact this.1 5000 (by decide)
  omega

/-- C7.  Prediction failure modes: a network error, a non-2xx response and a
    JSON-undecodable body all collapse to "no prediction" — but a 200 response
    whose JSON decodes to a shape missing the expected keys raises an uncaught
    exception (the extraction at prediction.py:95 runs outside the
    try/except), contradicting the claim that every malformed body returns
    none. -/
theorem c7_prediction_failure_modes :
    (∀ fromIso msg, runLandingPrediction fromIso (.err msg) = .ok none) ∧
    (∀ fromIso body, runLandingPrediction fromIso (.resp 500 body) = .ok none) ∧
    (∀ fromIso, runLandingPrediction fromIso (.resp 200 none) = .ok none) ∧
    (runLandingPrediction (fun _ => none) (.resp 200 (some (.obj []))) =
      .error (.keyError "prediction")) :=
  ⟨fun _ _ => rfl, fun _ _ => rfl, fun _ => rfl, rfl⟩

/-- C9.  The scoped-acquisition statement of the evaluation pass
    (notifier.py:235) acquires only `sondes_altitudes_lock`: Python's `and`
    over two truthy lock objects evaluates to the right operand, so the
    tracked-sondes and notified-sondes locks are never acquired there. -/
theorem c9_evaluation_pass_acquires_one_lock :
    locksAcquiredByWith checkNotificationsWithExpr = [PyLock.sondesAltitudesLock] ∧
    PyLock.trackedSondesLock ∉ locksAcquiredByWith checkNotificationsWithExpr ∧
    PyLock.notifiedSondesLock ∉ locksAcquiredByWith checkNotificationsWithExpr := by
  refine ⟨rfl, by decide, by decide⟩
